import Mathlib

/-!
Verification development for the filesystem server of TheMCP-server
(`src/servers/filesystem/filesystem_mcp.py`).

The Python code is shallowly embedded: strings are `String` / `List Char`,
the filesystem is a finite association list from absolute component paths to
entries (regular file with character content, directory, or symlink), and
fallible Python code returns `Except String`.  CPython library functions used
by the source (`os.path.normpath`, `os.path.join`, `os.path.realpath`,
`str.splitlines`, `str.split`, `difflib.unified_diff`, ...) are embedded with
their CPython semantics, since the source's behaviour is defined in terms of
them.  Scope notes for the embedding appear as doc comments on the individual
definitions.
-/

set_option maxRecDepth 8000

/-! ## Character-list string primitives (CPython semantics) -/

/-- Split a character list on a separator character, CPython `str.split(sep)`
for a one-character separator: `"".split(sep) == [""]`, empty pieces kept. -/
def splitOnChar (sep : Char) : List Char → List (List Char)
  | [] => [[]]
  | c :: rest =>
    let r := splitOnChar sep rest
    if c = sep then [] :: r
    else
      match r with
      | [] => [[c]]
      | h :: t => (c :: h) :: t

/-- Join pieces with a separator list, `sep.join(parts)`. -/
def joinWith (sep : List Char) : List (List Char) → List Char
  | [] => []
  | [p] => p
  | p :: rest => p ++ sep ++ joinWith sep rest

/-- Drop the longest suffix whose characters satisfy `f`. -/
def dropEndWhile (f : Char → Bool) (l : List Char) : List Char :=
  (l.reverse.dropWhile f).reverse

/-- ASCII whitespace stripped by CPython `str.strip()` / `str.lstrip()` with no
argument (the code never feeds non-ASCII whitespace to these calls, so the
embedding restricts the whitespace set to its ASCII part). -/
def isPySpace (c : Char) : Bool :=
  c = ' ' || c = '\t' || c = '\n' || c = '\r' || c = Char.ofNat 11 || c = Char.ofNat 12

/-- CPython `s.strip()` over the ASCII whitespace set. -/
def pyStripWs (l : List Char) : List Char :=
  dropEndWhile isPySpace (l.dropWhile isPySpace)

/-- CPython `s.lstrip()` over the ASCII whitespace set. -/
def pyLstripWs (l : List Char) : List Char :=
  l.dropWhile isPySpace

/-- Characters stripped by `strip("'\"")` in `normalize_path`. -/
def isQuoteChar (c : Char) : Bool :=
  c = Char.ofNat 39 || c = Char.ofNat 34

/-- CPython `s.strip("'\"")`. -/
def pyStripQuotes (l : List Char) : List Char :=
  dropEndWhile isQuoteChar (l.dropWhile isQuoteChar)

/-- Line-break characters recognised by CPython `str.splitlines`. -/
def isLineBreak (c : Char) : Bool :=
  c = '\n' || c = '\r' || c = Char.ofNat 11 || c = Char.ofNat 12 ||
  c = Char.ofNat 28 || c = Char.ofNat 29 || c = Char.ofNat 30 ||
  c = Char.ofNat 133 || c = Char.ofNat 8232 || c = Char.ofNat 8233

/-- CPython `str.splitlines()`: `"\r\n"` counts as one break, a trailing break
produces no extra empty line, and `"".splitlines() == []`. -/
def pySplitlines : List Char → List (List Char)
  | [] => []
  | '\r' :: '\n' :: rest => [] :: pySplitlines rest
  | '\r' :: rest => [] :: pySplitlines rest
  | c :: rest =>
    if isLineBreak c then [] :: pySplitlines rest
    else
      match pySplitlines rest with
      | [] => [[c]]
      | h :: t => (c :: h) :: t

/-- Test whether `pat` occurs as a contiguous substring, CPython `pat in s`. -/
def containsSub (pat : List Char) : List Char → Bool
  | [] => pat.isPrefixOf []
  | c :: rest => pat.isPrefixOf (c :: rest) || containsSub pat rest

/-- The piece before the first occurrence of `sep` (`s.split(sep)[0]` for a
nonempty separator); the whole string when `sep` does not occur. -/
def splitHead (sep : List Char) : List Char → List Char
  | [] => []
  | c :: rest =>
    if sep.isPrefixOf (c :: rest) then []
    else c :: splitHead sep rest

/-! ## `normalize_line_endings` (source lines 159-161) -/

/-- Source `normalize_line_endings`: CPython `text.replace("\r\n", "\n")`,
left-to-right and non-overlapping. -/
def normalizeLineEndingsCl : List Char → List Char
  | [] => []
  | '\r' :: '\n' :: rest => '\n' :: normalizeLineEndingsCl rest
  | c :: rest => c :: normalizeLineEndingsCl rest

/-! ## POSIX path primitives (`os.path` as used by the source) -/

/-- A path string is absolute when it starts with the separator
(CPython `p.startswith("/")`). -/
def clIsAbs (l : List Char) : Bool := List.isPrefixOf ['/'] l

/-- CPython `posixpath.join(a, b)` for two arguments. -/
def pyJoin (a b : List Char) : List Char :=
  if clIsAbs b then b
  else if a = [] || a.getLast? = some '/' then a ++ b
  else a ++ '/' :: b

/-- Number of leading separators kept by `posixpath.normpath` (the POSIX
special case keeps exactly two leading slashes). -/
def leadSlashes (p : List Char) : Nat :=
  if clIsAbs p then
    (if p.take 2 = ['/', '/'] && p.take 3 ≠ ['/', '/', '/'] then 2 else 1)
  else 0

/-- One step of `posixpath.normpath`'s component scan. -/
def normpathStep (slashes : Nat) (acc : List (List Char)) (comp : List Char) :
    List (List Char) :=
  if comp = [] || comp = ['.'] then acc
  else if comp ≠ ['.', '.'] || (slashes = 0 && acc = [])
      || (acc ≠ [] && acc.getLast? = some ['.', '.']) then acc ++ [comp]
  else if acc ≠ [] then acc.dropLast
  else acc

/-- CPython `posixpath.normpath`: collapse `.`, `..` and repeated separators
lexically. -/
def normpathCl (p : List Char) : List Char :=
  if p = [] then ['.']
  else
    let joined := List.replicate (leadSlashes p) '/' ++
      joinWith ['/'] ((splitOnChar '/' p).foldl (normpathStep (leadSlashes p)) [])
    if joined = [] then ['.'] else joined

/-- Process environment fixed at call time: the home directory used by
`os.path.expanduser` and the working directory used by `os.getcwd`. -/
structure Env where
  home : String
  cwd : String
deriving DecidableEq

/-- CPython `os.path.abspath` relative to the environment's working dir. -/
def abspathCl (env : Env) (q : List Char) : List Char :=
  if clIsAbs q then normpathCl q
  else normpathCl (pyJoin env.cwd.toList q)

/-- First half of source `normalize_path` (lines 44-48): strip surrounding
whitespace and quotes, then expand a leading `~` via
`os.path.join(os.path.expanduser("~"), p[1:])` (note that for `"~/x"` the
second join argument `"/x"` is absolute, so the join discards the home
directory, exactly as CPython does). -/
def preNormalize (env : Env) (p : String) : List Char :=
  let p1 := pyStripQuotes (pyStripWs p.toList)
  if p1.take 2 = ['~', '/'] || p1 = ['~'] then pyJoin env.home.toList (p1.drop 1)
  else p1

/-- Second half of source `normalize_path` (lines 49-52): after `normpath`, a
non-absolute path is made absolute against the working directory. -/
def normalizeCore (env : Env) (p3 : List Char) : String :=
  if clIsAbs p3 then String.mk p3
  else String.mk (abspathCl env (pyJoin env.cwd.toList p3))

/-- Source `normalize_path` (lines 44-52). -/
def normalizePath (env : Env) (p : String) : String :=
  normalizeCore env (normpathCl (preNormalize env p))

/-- Absolute-path test on `String`s. -/
def pyIsAbs (s : String) : Bool := clIsAbs s.toList

/-! ## Filesystem model and `os.path.realpath` -/

/-- A filesystem entry: regular file with character content, directory, or
symbolic link carrying its target string. -/
inductive FsEntry where
  | file (content : List Char)
  | dir
  | symlink (target : String)
deriving DecidableEq

/-- A filesystem state: a finite association of absolute component paths
(lists of path components below `/`) to entries. -/
def Fs := List (List String × FsEntry)

instance : DecidableEq Fs := by
  unfold Fs
  infer_instance

/-- Look up a component path in the filesystem. -/
def fsLookup : Fs → List String → Option FsEntry
  | [], _ => none
  | (q, e) :: rest, p => if q = p then some e else fsLookup rest p

/-- Component list of a path string (empty components dropped). -/
def strComps (s : String) : List String :=
  ((splitOnChar '/' s.toList).filter (fun c => c ≠ [])).map String.mk

/-- Render an absolute component path back to a string. -/
def joinAbsStr (cs : List String) : String :=
  String.mk ('/' :: joinWith ['/'] (cs.map String.toList))

/-- Component-wise symlink resolution behind `os.path.realpath` (strict=False,
so a missing component never raises: resolution simply keeps the remaining
suffix).  `..` is resolved against the already-resolved prefix and a symlink
target restarts resolution when absolute, as in CPython's `posixpath`.  The
fuel bounds symlink expansions, standing in for CPython's seen-link cutoff;
every path considered in this development resolves well inside the bound. -/
def realpathGo (fs : Fs) : Nat → List String → List String → List String
  | 0, resolved, remaining => resolved ++ remaining
  | _ + 1, resolved, [] => resolved
  | fuel + 1, resolved, c :: rest =>
    if c = "" || c = "." then realpathGo fs fuel resolved rest
    else if c = ".." then realpathGo fs fuel resolved.dropLast rest
    else
      match fsLookup fs (resolved ++ [c]) with
      | some (.symlink target) =>
        if clIsAbs target.toList then realpathGo fs fuel [] (strComps target ++ rest)
        else realpathGo fs fuel resolved (strComps target ++ rest)
      | _ => realpathGo fs fuel (resolved ++ [c]) rest

/-- CPython `os.path.realpath` (default non-strict mode) over the filesystem
model; it never raises. -/
def realpathStr (fs : Fs) (p : String) : String :=
  joinAbsStr (realpathGo fs (p.toList.length + 4096) [] (strComps p))

/-! ## `is_path_within_allowed_directory` (source lines 55-65) -/

/-- Body of source `is_path_within_allowed_directory` after both arguments
have been normalized: raise `ValueError` when either normal form is not
absolute, reject embedded NUL, then compare for equality or a separator-aware
prefix. -/
def withinCheck (np na : String) : Except String Bool :=
  if !pyIsAbs np || !pyIsAbs na then .error "Paths must be absolute"
  else if np.toList.contains (Char.ofNat 0) then .ok false
  else if np = na then .ok true
  else .ok (List.isPrefixOf (na.toList ++ ['/']) np.toList)

/-- Source `is_path_within_allowed_directory` (lines 55-65). -/
def isPathWithinAllowedDirectory (env : Env) (absolutePath allowedDir : String) :
    Except String Bool :=
  withinCheck (normalizePath env absolutePath) (normalizePath env allowedDir)

/-! ## `validate_path` (source lines 68-86) -/

/-- Second containment check of source `validate_path` (lines 75-79), applied
to the `realpath`-resolved path. -/
def validateResolvedPart (env : Env) (allowedDir realPath : String) :
    Except String String :=
  match isPathWithinAllowedDirectory env realPath allowedDir with
  | .error e => .error e
  | .ok false =>
    .error ("Access denied - symlink target outside allowed directory: " ++ realPath)
  | .ok true => .ok realPath

/-- Source `validate_path` (lines 68-86).  The Python body wraps the
resolution step in `try ... except FileNotFoundError`, falling back to
validating the parent directory; but `os.path.realpath` is called in its
default non-strict mode and therefore never raises `FileNotFoundError`, so
that handler is unreachable and the embedding is the composition of the two
containment checks around `realpath`. -/
def validatePath (fs : Fs) (env : Env) (requestedPath allowedDir : String) :
    Except String String :=
  match isPathWithinAllowedDirectory env (normalizePath env requestedPath) allowedDir with
  | .error e => .error e
  | .ok false =>
    .error ("Access denied - path outside allowed directory: "
      ++ normalizePath env requestedPath ++ " not in " ++ allowedDir)
  | .ok true =>
    validateResolvedPart env allowedDir (realpathStr fs (normalizePath env requestedPath))

/-- The symlink-resolved form of a requested path, as the claims use the term:
the real path of its normalized absolute form. -/
def resolvedForm (fs : Fs) (env : Env) (p : String) : String :=
  realpathStr fs (normalizePath env p)

/-- Stated from the claims' wording: a path "lies under the allowed root" when
it equals the root or extends it past a separator. -/
def liesUnder (p root : String) : Bool :=
  p = root || List.isPrefixOf (root.toList ++ ['/']) p.toList

/-- Success test for an `Except` result. -/
def exceptIsOk {ε α : Type} : Except ε α → Bool
  | .ok _ => true
  | .error _ => false

instance {ε α : Type} [DecidableEq ε] [DecidableEq α] (a b : Except ε α) :
    Decidable (a = b) :=
  match a, b with
  | .error x, .error y => decidable_of_iff (x = y) (by simp)
  | .error _, .ok _ => isFalse (by simp)
  | .ok _, .error _ => isFalse (by simp)
  | .ok x, .ok y => decidable_of_iff (x = y) (by simp)

/-! ## Concrete environments and filesystems used by the examples -/

/-- Environment with root working directory; the server always works with
absolute paths, so only absoluteness of `cwd` matters. -/
def env0 : Env := { home := "/root", cwd := "/" }

/-- Filesystem for the C1 counterexample: a symlink outside the allowed root
whose target is inside it. -/
def fsOutsideLink : Fs :=
  [ (["sandbox"], .dir),
    (["sandbox", "f"], .file ['x']),
    (["other"], .dir),
    (["other", "link"], .symlink "/sandbox/f") ]

example : resolvedForm fsOutsideLink env0 "/other/link" = "/sandbox/f" := by decide

example : validatePath fsOutsideLink env0 "/sandbox/f" "/sandbox" = .ok "/sandbox/f" := by
  decide

/-! ## Lemmas: normalization always yields absolute paths -/

theorem clIsAbs_append (a b : List Char) (h : clIsAbs a = true) :
    clIsAbs (a ++ b) = true := by
  cases a with
  | nil => simp [clIsAbs, List.isPrefixOf] at h
  | cons c t =>
    simp only [clIsAbs, List.isPrefixOf, Bool.and_eq_true, beq_iff_eq,
      List.cons_append] at h ⊢
    exact ⟨h.1, by simp [List.isPrefixOf]⟩

theorem clIsAbs_ne_nil (a : List Char) (h : clIsAbs a = true) : a ≠ [] := by
  intro he
  rw [he] at h
  simp [clIsAbs, List.isPrefixOf] at h

theorem clIsAbs_replicate_append (k : Nat) (b : List Char) (hk : 0 < k) :
    clIsAbs (List.replicate k '/' ++ b) = true := by
  cases k with
  | zero => omega
  | succ n => simp [clIsAbs, List.replicate_succ, List.isPrefixOf]

theorem leadSlashes_pos (p : List Char) (h : clIsAbs p = true) : 0 < leadSlashes p := by
  unfold leadSlashes
  rw [if_pos h]
  split <;> omega

theorem normpathCl_abs (p : List Char) (h : clIsAbs p = true) :
    clIsAbs (normpathCl p) = true := by
  have hpos := leadSlashes_pos p h
  simp only [normpathCl]
  rw [if_neg (clIsAbs_ne_nil p h)]
  split
  case isTrue hj =>
    exact absurd hj (clIsAbs_ne_nil _ (clIsAbs_replicate_append _ _ hpos))
  case isFalse hj => exact clIsAbs_replicate_append _ _ hpos

theorem pyJoin_abs (a b : List Char) (h : clIsAbs a = true) :
    clIsAbs (pyJoin a b) = true := by
  unfold pyJoin
  split
  case isTrue hb => exact hb
  case isFalse hb =>
    split
    case isTrue hcase => exact clIsAbs_append a b h
    case isFalse hcase => exact clIsAbs_append a ('/' :: b) h

theorem abspathCl_abs (env : Env) (q : List Char) (hq : clIsAbs q = true) :
    clIsAbs (abspathCl env q) = true := by
  unfold abspathCl
  rw [if_pos hq]
  exact normpathCl_abs q hq

theorem normalizeCore_abs (env : Env) (q : List Char) (hcwd : pyIsAbs env.cwd = true) :
    pyIsAbs (normalizeCore env q) = true := by
  unfold normalizeCore
  split
  case isTrue h3 => exact h3
  case isFalse h3 => exact abspathCl_abs env _ (pyJoin_abs _ _ hcwd)

theorem normalizePath_abs (env : Env) (p : String) (hcwd : pyIsAbs env.cwd = true) :
    pyIsAbs (normalizePath env p) = true := by
  unfold normalizePath
  exact normalizeCore_abs env _ hcwd

theorem withinCheck_ok (np na : String) (h1 : pyIsAbs np = true) (h2 : pyIsAbs na = true) :
    ∃ b, withinCheck np na = .ok b := by
  unfold withinCheck
  rw [h1, h2]
  simp only [Bool.not_true, Bool.or_self, Bool.false_eq_true, if_false]
  split
  · exact ⟨false, rfl⟩
  · split
    · exact ⟨true, rfl⟩
    · exact ⟨_, rfl⟩

theorem withinCheck_ok_true_elim (np na : String) (h : withinCheck np na = .ok true) :
    np = na ∨ List.isPrefixOf (na.toList ++ ['/']) np.toList = true := by
  unfold withinCheck at h
  split at h
  · exact absurd h (by simp)
  · split at h
    · exact absurd h (by simp)
    · split at h
      case isTrue heq => exact Or.inl heq
      case isFalse heq =>
        right
        exact Except.ok.inj h

theorem isWithin_ok (env : Env) (p a : String) (hcwd : pyIsAbs env.cwd = true) :
    ∃ b, isPathWithinAllowedDirectory env p a = .ok b :=
  withinCheck_ok _ _ (normalizePath_abs env p hcwd) (normalizePath_abs env a hcwd)

theorem isWithin_ok_true_elim (env : Env) (p a : String)
    (h : isPathWithinAllowedDirectory env p a = .ok true) :
    normalizePath env p = normalizePath env a ∨
      List.isPrefixOf ((normalizePath env a).toList ++ ['/']) (normalizePath env p).toList
        = true :=
  withinCheck_ok_true_elim _ _ h

theorem isPrefixOf_append_of (a b c : List Char) (h : a.isPrefixOf b = true) :
    a.isPrefixOf (b ++ c) = true := by
  induction a generalizing b with
  | nil => simp [List.isPrefixOf]
  | cons x xs ih =>
    cases b with
    | nil => simp [List.isPrefixOf] at h
    | cons y ys =>
      simp only [List.isPrefixOf, List.cons_append, Bool.and_eq_true, beq_iff_eq] at h ⊢
      exact ⟨h.1, ih ys h.2⟩

theorem strToList_append (a b : String) : (a ++ b).toList = a.toList ++ b.toList :=
  String.data_append a b

/-- Filesystem with a symlink inside the root pointing outside it. -/
def fsInsideLinkOut : Fs :=
  [ (["sandbox"], .dir),
    (["sandbox", "evil"], .symlink "/etc"),
    (["etc"], .dir),
    (["etc", "shadow"], .file ['s']) ]

example : validatePath fsInsideLinkOut env0 "/sandbox/evil" "/sandbox"
    = .error "Access denied - symlink target outside allowed directory: /etc" := by decide

example : validatePath fsInsideLinkOut env0 "/sandbox/evil/shadow" "/sandbox"
    = .error "Access denied - symlink target outside allowed directory: /etc/shadow" := by
  decide

example : exceptIsOk (validatePath [(["sandbox"], .dir), (["sandbox-other"], .dir)] env0
    "/sandbox-other" "/sandbox") = false := by decide

example : validatePath [(["sandbox"], .dir)] env0 "/sandbox/../etc/passwd" "/sandbox"
    = .error "Access denied - path outside allowed directory: /etc/passwd not in /sandbox" := by
  decide

/-- The claim C1 asserts that `validate` succeeds exactly when the resolved
form lies under the root.  This is refuted below: a requested path that is
itself outside the root (lexically) is rejected by the first containment check
even when its symlink-resolved form is inside the root, because `validate_path`
requires containment of the unresolved normalized path first. -/
theorem validate_rejects_resolved_inside_when_raw_outside :
    liesUnder (resolvedForm fsOutsideLink env0 "/other/link") "/sandbox" = true ∧
    exceptIsOk (validatePath fsOutsideLink env0 "/other/link" "/sandbox") = false := by
  decide

/-- Amended C1: `validate` succeeds exactly when both the lexically normalized
requested path and its symlink-resolved form pass the containment test against
the allowed root; on success it returns the resolved form, whose normal form
equals the normalized root or extends it past a separator; whenever the
resolved form fails containment (symlinks pointing out of the root, or sibling
directories that merely share the root as a string prefix), `validate` fails
with an "Access denied" error (the SecurityViolation). -/
theorem validatePath_characterization (fs : Fs) (env : Env) (p root : String)
    (hcwd : pyIsAbs env.cwd = true) :
    (exceptIsOk (validatePath fs env p root) = true ↔
      (isPathWithinAllowedDirectory env (normalizePath env p) root = .ok true ∧
        isPathWithinAllowedDirectory env (resolvedForm fs env p) root = .ok true)) ∧
    (∀ r, validatePath fs env p root = .ok r →
      r = resolvedForm fs env p ∧
      (normalizePath env r = normalizePath env root ∨
        List.isPrefixOf ((normalizePath env root).toList ++ ['/'])
          (normalizePath env r).toList = true)) ∧
    (isPathWithinAllowedDirectory env (resolvedForm fs env p) root = .ok false →
      ∃ msg, validatePath fs env p root = .error msg ∧
        List.isPrefixOf "Access denied".toList msg.toList = true) := by
  obtain ⟨b1, h1⟩ := isWithin_ok env (normalizePath env p) root hcwd
  obtain ⟨b2, h2⟩ := isWithin_ok env (resolvedForm fs env p) root hcwd
  have h2r : isPathWithinAllowedDirectory env (realpathStr fs (normalizePath env p)) root
      = .ok b2 := h2
  unfold validatePath validateResolvedPart
  rw [h1]
  cases b1 with
  | false =>
    refine ⟨by simp [exceptIsOk, h1], ?_, ?_⟩
    · intro r hr
      simp at hr
    · intro _
      refine ⟨_, rfl, ?_⟩
      rw [strToList_append, strToList_append, strToList_append]
      exact isPrefixOf_append_of _ _ _ (isPrefixOf_append_of _ _ _ (isPrefixOf_append_of _ _ _
        (by decide)))
  | true =>
    rw [h2r]
    cases b2 with
    | false =>
      refine ⟨by simp [exceptIsOk, h1, h2], ?_, ?_⟩
      · intro r hr
        simp at hr
      · intro _
        refine ⟨_, rfl, ?_⟩
        rw [strToList_append]
        exact isPrefixOf_append_of _ _ _ (by decide)
    | true =>
      refine ⟨by simp [exceptIsOk, h1, h2], ?_, ?_⟩
      · intro r hr
        have hr2 : r = resolvedForm fs env p := (Except.ok.inj hr).symm
        subst hr2
        exact ⟨rfl, isWithin_ok_true_elim env _ root h2⟩
      · intro hcontra
        rw [h2] at hcontra
        exact absurd (Except.ok.inj hcontra) (by simp)

theorem validatePath_characterization_witness :
    exceptIsOk (validatePath fsOutsideLink env0 "/sandbox/f" "/sandbox") = true :=
  ((validatePath_characterization fsOutsideLink env0 "/sandbox/f" "/sandbox"
    (by decide)).1).mpr ⟨by decide, by decide⟩

/-! ## C2: the creation case of `validate_path` -/

/-- CPython `posixpath.dirname`. -/
def clDirname (p : List Char) : List Char :=
  let head := (p.reverse.dropWhile (fun c => c ≠ '/')).reverse
  if head ≠ [] && head.any (fun c => c ≠ '/') then dropEndWhile (fun c => c = '/') head
  else head

/-- Existence of a path in the model after full resolution, marking the case
in which a strict resolution would raise `FileNotFoundError` (the path's final
component does not exist). -/
def strictResolveExists (fs : Fs) (p : String) : Bool :=
  strComps (realpathStr fs p) = [] || (fsLookup fs (strComps (realpathStr fs p))).isSome

/-- Stated from the claim C2's wording (and from the unreachable
`except FileNotFoundError` handler of the source): when the final path
component does not exist, resolve and re-validate only the parent directory
and return the original unresolved absolute path. -/
def validatePathClaimModel (fs : Fs) (env : Env) (requestedPath allowedDir : String) :
    Except String String :=
  let absolutePath := normalizePath env requestedPath
  match isPathWithinAllowedDirectory env absolutePath allowedDir with
  | .error e => .error e
  | .ok false =>
    .error ("Access denied - path outside allowed directory: " ++ absolutePath
      ++ " not in " ++ allowedDir)
  | .ok true =>
    if strictResolveExists fs absolutePath then
      let realPath := realpathStr fs absolutePath
      match isPathWithinAllowedDirectory env realPath allowedDir with
      | .error e => .error e
      | .ok false =>
        .error ("Access denied - symlink target outside allowed directory: " ++ realPath)
      | .ok true => .ok realPath
    else
      let realParent := realpathStr fs (String.mk (clDirname absolutePath.toList))
      match isPathWithinAllowedDirectory env realParent allowedDir with
      | .error e => .error e
      | .ok false =>
        .error ("Access denied - parent directory outside allowed directory: " ++ realParent)
      | .ok true => .ok absolutePath

/-- Filesystem for the C2 divergence: an in-root symlink to an in-root
directory, and a request to create a new file through the symlink. -/
def fsCreation : Fs :=
  [ (["sandbox"], .dir),
    (["sandbox", "dir"], .dir),
    (["sandbox", "link"], .symlink "/sandbox/dir") ]

/-- Claim C2 says that for a path whose final component does not exist,
`validate` returns the original unresolved absolute path after re-validating
only the parent.  The code instead returns the fully resolved path: CPython's
`os.path.realpath` in default non-strict mode never raises
`FileNotFoundError`, so the fallback branch of the source is unreachable and
the symlink in the parent is resolved away. -/
theorem validatePath_creation_returns_resolved_not_original :
    strictResolveExists fsCreation "/sandbox/link/new.txt" = false ∧
    validatePath fsCreation env0 "/sandbox/link/new.txt" "/sandbox"
      = .ok "/sandbox/dir/new.txt" ∧
    validatePathClaimModel fsCreation env0 "/sandbox/link/new.txt" "/sandbox"
      = .ok "/sandbox/link/new.txt" ∧
    ("/sandbox/dir/new.txt" : String) ≠ "/sandbox/link/new.txt" := by
  decide

/-! ## C6: atomic write (`write_file`, source lines 343-365) and read -/

/-- Operating-system errors raised by the file operations the server uses.
`notSupported` marks the one corner the model does not follow (opening or
reading through a symlink entry directly); the theorems below never rely on
that branch. -/
inductive OsErr where
  | fileExists
  | fileNotFound
  | isADirectory
  | notSupported
deriving DecidableEq

/-- Remove a path's entry if present (`os.unlink` wrapped in `try/except pass`
removes the entry and swallows a missing-file error). -/
def fsRemove (p : List String) : Fs → Fs
  | [] => []
  | (q, e) :: rest => if q = p then fsRemove p rest else (q, e) :: fsRemove p rest

/-- Map a path to an entry, shadowing any previous binding. -/
def fsInsert (p : List String) (e : FsEntry) (fs : Fs) : Fs :=
  (p, e) :: fsRemove p fs

/-- The parent directory of `cs` exists: either `cs` is a direct child of the
filesystem root or its parent is a directory entry. -/
def parentIsDir (fs : Fs) (cs : List String) : Bool :=
  cs ≠ [] && (cs.dropLast = [] || fsLookup fs cs.dropLast = some .dir)

/-- CPython `open(path, "x")`: exclusive create; `FileExistsError` when any
entry (file, directory, or even a dangling symlink) already sits at the path,
`FileNotFoundError` when the parent directory is missing; on success the file
holds the written content (the model folds the write into the open). -/
def openX (fs : Fs) (cs : List String) (content : List Char) : Except OsErr Fs :=
  match fsLookup fs cs with
  | some _ => .error .fileExists
  | none =>
    if parentIsDir fs cs then .ok (fsInsert cs (.file content) fs)
    else .error .fileNotFound

/-- CPython `open(path, "w")`: truncating create-or-overwrite.  A directory
raises `IsADirectoryError`; a symlink entry would be followed by CPython, a
corner the model marks `notSupported` (the theorems assume a fresh temp name,
which keeps this branch unreachable). -/
def openW (fs : Fs) (cs : List String) (content : List Char) : Except OsErr Fs :=
  match fsLookup fs cs with
  | some .dir => .error .isADirectory
  | some (.symlink _) => .error .notSupported
  | some (.file _) => .ok (fsInsert cs (.file content) fs)
  | none =>
    if parentIsDir fs cs then .ok (fsInsert cs (.file content) fs)
    else .error .fileNotFound

/-- POSIX `os.rename(src, dst)` for a regular-file source: atomically replaces
`dst` (a file or symlink entry is overwritten, a directory raises), removing
`src`; renaming a path onto itself succeeds and changes nothing. -/
def pyRename (fs : Fs) (src dst : List String) : Except OsErr Fs :=
  match fsLookup fs src with
  | none => .error .fileNotFound
  | some e =>
    if src = dst then .ok fs
    else
      match fsLookup fs dst with
      | some .dir => .error .isADirectory
      | _ =>
        if parentIsDir fs dst then .ok (fsInsert dst e (fsRemove src fs))
        else .error .fileNotFound

/-- The temporary sibling name built by the source:
`f"{valid_path}.{secrets.token_hex(16)}.tmp"` with the random token taken as a
parameter. -/
def tempNameStr (validPath token : String) : String :=
  validPath ++ "." ++ token ++ ".tmp"

/-- Source `write_file` body after validation (lines 348-362): exclusive
create of the temp file then rename; on `FileExistsError` retry the open
without exclusivity (an exception raised inside that handler propagates
without the unlink, since the sibling `except` clause does not catch it); on
any other exception unlink the temp file quietly and propagate.  The result
pairs the final filesystem with the propagated error, if any. -/
def writeFileFs (fs : Fs) (validPath token content : String) : Fs × Option OsErr :=
  match openX fs (strComps (tempNameStr validPath token)) content.toList with
  | .ok fs1 =>
    match pyRename fs1 (strComps (tempNameStr validPath token)) (strComps validPath) with
    | .ok fs2 => (fs2, none)
    | .error e => (fsRemove (strComps (tempNameStr validPath token)) fs1, some e)
  | .error .fileExists =>
    match openW fs (strComps (tempNameStr validPath token)) content.toList with
    | .ok fs1 =>
      match pyRename fs1 (strComps (tempNameStr validPath token)) (strComps validPath) with
      | .ok fs2 => (fs2, none)
      | .error e => (fs1, some e)
    | .error e => (fs, some e)
  | .error e => (fsRemove (strComps (tempNameStr validPath token)) fs, some e)

/-- Plain read of a validated path (source `read_file`, lines 316-317). -/
def readFileFs (fs : Fs) (p : String) : Except OsErr String :=
  match fsLookup fs (strComps p) with
  | some (.file c) => .ok (String.mk c)
  | some .dir => .error .isADirectory
  | some (.symlink _) => .error .notSupported
  | none => .error .fileNotFound

theorem fsLookup_insert_self (fs : Fs) (p : List String) (e : FsEntry) :
    fsLookup (fsInsert p e fs) p = some e := by
  unfold fsInsert fsLookup
  rw [if_pos rfl]

theorem fsLookup_insert_ne (fs : Fs) (p q : List String) (e : FsEntry) (h : p ≠ q) :
    fsLookup (fsInsert p e fs) q = fsLookup (fsRemove p fs) q := by
  unfold fsInsert
  show (if p = q then some e else fsLookup (fsRemove p fs) q) = _
  rw [if_neg h]

theorem fsLookup_remove_self (fs : Fs) (p : List String) :
    fsLookup (fsRemove p fs) p = none := by
  induction fs with
  | nil => rfl
  | cons hd tl ih =>
    obtain ⟨q, e⟩ := hd
    unfold fsRemove
    by_cases hq : q = p
    · rw [if_pos hq]
      exact ih
    · rw [if_neg hq]
      show (if q = p then some e else fsLookup (fsRemove p tl) p) = none
      rw [if_neg hq]
      exact ih

theorem fsLookup_remove_ne (fs : Fs) (p q0 : List String) (h : p ≠ q0) :
    fsLookup (fsRemove p fs) q0 = fsLookup fs q0 := by
  induction fs with
  | nil => rfl
  | cons hd tl ih =>
    obtain ⟨q, e⟩ := hd
    unfold fsRemove
    by_cases hq : q = p
    · rw [if_pos hq, ih]
      show _ = (if q = q0 then some e else fsLookup tl q0)
      rw [if_neg (by rw [hq]; exact h)]
    · rw [if_neg hq]
      show (if q = q0 then some e else fsLookup (fsRemove p tl) q0)
        = (if q = q0 then some e else fsLookup tl q0)
      by_cases hq2 : q = q0
      · rw [if_pos hq2, if_pos hq2]
      · rw [if_neg hq2, if_neg hq2]
        exact ih

theorem openX_ok_elim (fs : Fs) (cs : List String) (c : List Char) (fs1 : Fs)
    (h : openX fs cs c = .ok fs1) : fs1 = fsInsert cs (.file c) fs := by
  unfold openX at h
  split at h
  · exact absurd h (by simp)
  · split at h
    · exact (Except.ok.inj h).symm
    · exact absurd h (by simp)

theorem openX_fresh_not_fileExists (fs : Fs) (cs : List String) (c : List Char)
    (hfresh : fsLookup fs cs = none) : openX fs cs c ≠ .error .fileExists := by
  have hre : openX fs cs c
      = if parentIsDir fs cs then .ok (fsInsert cs (.file c) fs) else .error .fileNotFound := by
    unfold openX
    rw [hfresh]
  rw [hre]
  split <;> simp

theorem pyRename_ok_elim (fs : Fs) (src dst : List String) (fs2 : Fs)
    (hne : src ≠ dst) (h : pyRename fs src dst = .ok fs2) :
    ∃ e, fsLookup fs src = some e ∧ fs2 = fsInsert dst e (fsRemove src fs) := by
  unfold pyRename at h
  split at h
  · exact absurd h (by simp)
  case h_2 e heq =>
    rw [if_neg hne] at h
    split at h
    · exact absurd h (by simp)
    · split at h
      · exact ⟨e, heq, (Except.ok.inj h).symm⟩
      · exact absurd h (by simp)

/-- Claim C6: a successful `write` followed by `read` returns exactly the
written content, and after the call completes — with success or with an error
raised after the temporary file was created — no temporary artifact remains.
The hypotheses state that the random temp name is fresh (does not collide with
an existing entry, which is what "the temporary file was created" presumes)
and hence differs from the target path. -/
theorem write_read_roundtrip_and_no_temp (fs : Fs) (p token content : String)
    (hfresh : fsLookup fs (strComps (tempNameStr p token)) = none)
    (hneq : strComps (tempNameStr p token) ≠ strComps p) :
    ((writeFileFs fs p token content).2 = none →
      readFileFs (writeFileFs fs p token content).1 p = .ok content) ∧
    fsLookup (writeFileFs fs p token content).1 (strComps (tempNameStr p token)) = none := by
  unfold writeFileFs
  cases hx : openX fs (strComps (tempNameStr p token)) content.toList with
  | ok fs1 =>
    dsimp only
    have hfs1 : fs1 = fsInsert (strComps (tempNameStr p token)) (.file content.toList) fs :=
      openX_ok_elim _ _ _ _ hx
    cases hr : pyRename fs1 (strComps (tempNameStr p token)) (strComps p) with
    | ok fs2 =>
      dsimp only
      obtain ⟨e, he, hfs2⟩ := pyRename_ok_elim _ _ _ _ hneq hr
      have he2 : e = .file content.toList := by
        rw [hfs1, fsLookup_insert_self] at he
        exact (Option.some.inj he).symm
      constructor
      · intro _
        show readFileFs fs2 p = .ok content
        unfold readFileFs
        rw [hfs2, he2, fsLookup_insert_self]
        rfl
      · show fsLookup fs2 (strComps (tempNameStr p token)) = none
        rw [hfs2, fsLookup_insert_ne _ _ _ _ (fun hh => hneq hh.symm),
          fsLookup_remove_ne _ _ _ (fun hh => hneq hh.symm),
          fsLookup_remove_self]
    | error e =>
      dsimp only
      refine ⟨by simp, ?_⟩
      exact fsLookup_remove_self _ _
  | error e =>
    cases e with
    | fileExists => exact absurd hx (openX_fresh_not_fileExists _ _ _ hfresh)
    | fileNotFound =>
      dsimp only
      refine ⟨by simp, ?_⟩
      exact fsLookup_remove_self _ _
    | isADirectory =>
      dsimp only
      refine ⟨by simp, ?_⟩
      exact fsLookup_remove_self _ _
    | notSupported =>
      dsimp only
      refine ⟨by simp, ?_⟩
      exact fsLookup_remove_self _ _

theorem write_read_roundtrip_and_no_temp_witness :
    readFileFs (writeFileFs [(["sandbox"], .dir)] "/sandbox/a.txt" "0f" "hi").1
        "/sandbox/a.txt" = .ok "hi" ∧
    fsLookup (writeFileFs [(["sandbox"], .dir)] "/sandbox/a.txt" "0f" "hi").1
        (strComps (tempNameStr "/sandbox/a.txt" "0f")) = none := by
  have h := write_read_roundtrip_and_no_temp [(["sandbox"], .dir)] "/sandbox/a.txt" "0f" "hi"
    (by decide) (by decide)
  exact ⟨h.1 (by decide), h.2⟩

/-! ## C5: `tail_file` (source lines 208-233) -/

/-- Total UTF-8 byte length of content, `os.stat(...).st_size` for a file
holding this character content. -/
def utf8Len (l : List Char) : Nat := (l.map Char.utf8Size).sum

/-- Decode characters starting at a byte offset (CPython `f.seek(pos)` in a
UTF-8 text stream followed by a read): `none` when the offset falls inside a
character's encoding, which makes CPython raise `UnicodeDecodeError`.  The
model omits universal-newline translation; the inputs considered contain no
carriage returns, on which the translation is the identity. -/
def charsFromByte : List Char → Nat → Option (List Char)
  | l, 0 => some l
  | [], _ + 1 => some []
  | c :: rest, pos + 1 =>
    if pos + 1 < c.utf8Size then none
    else charsFromByte rest (pos + 1 - c.utf8Size)

/-- CPython text-mode `f.seek(bytePos); f.read(size)`: `size` counts
characters, while the seek offset counts bytes — the mismatch at the heart of
`tail_file`'s chunk arithmetic. -/
def textReadChars (content : List Char) (bytePos size : Nat) : Option (List Char) :=
  (charsFromByte content bytePos).map (fun l => l.take size)

/-- The inner `for line in reversed(chunk_lines)` loop of `tail_file`:
prepend lines while fewer than `numLines` have been found. -/
def insertRev (chunkLines lines : List (List Char)) (found : Nat) (numLines : Int) :
    List (List Char) × Nat :=
  chunkLines.reverse.foldl
    (fun st line => if (st.2 : Int) < numLines then (line :: st.1, st.2 + 1) else st)
    (lines, found)

/-- Lines of one chunk, as `tail_file` computes them:
`normalize_line_endings(chunk + remaining_text).splitlines()`. -/
def tailSplitChunk (chunkText : List Char) : List (List Char) :=
  pySplitlines (normalizeLineEndingsCl chunkText)

/-- Carry-over logic of `tail_file`: while the start of the file has not been
reached, the first split element is held back as the partial line. -/
def tailCarry (position2 : Nat) (chunkLines : List (List Char)) (remaining : List Char) :
    List Char × List (List Char) :=
  if position2 > 0 then (chunkLines.headD [], chunkLines.tail) else (remaining, chunkLines)

/-- One iteration of `tail_file`'s while loop (source lines 219-232): read the
previous block, split it with the carried partial line, and accumulate
complete lines from the end; `none` models a `UnicodeDecodeError` escaping
from `f.read`. -/
def tailChunkProcess (content : List Char) (numLines : Int) (position : Nat)
    (lines : List (List Char)) (found : Nat) (remaining : List Char) :
    Option (Nat × List (List Char) × Nat × List Char) :=
  match textReadChars content (position - min 1024 position) (min 1024 position) with
  | none => none
  | some chunk =>
    some (position - min 1024 position,
      (insertRev (tailCarry (position - min 1024 position)
          (tailSplitChunk (chunk ++ remaining)) remaining).2 lines found numLines).1,
      (insertRev (tailCarry (position - min 1024 position)
          (tailSplitChunk (chunk ++ remaining)) remaining).2 lines found numLines).2,
      (tailCarry (position - min 1024 position)
        (tailSplitChunk (chunk ++ remaining)) remaining).1)

/-- The while loop of `tail_file`.  Each iteration shrinks `position` by at
least one, so fuel `position + 1` always runs the loop to its exit
condition. -/
def tailLoop (content : List Char) (numLines : Int) :
    Nat → Nat → List (List Char) → Nat → List Char → Except String (List (List Char))
  | 0, _, lines, _, _ => .ok lines
  | fuel + 1, position, lines, found, remaining =>
    if position > 0 ∧ (found : Int) < numLines then
      match tailChunkProcess content numLines position lines found remaining with
      | none => .error "UnicodeDecodeError"
      | some st => tailLoop content numLines fuel st.1 st.2.1 st.2.2.1 st.2.2.2
    else .ok lines

/-- Source `tail_file`: empty files short-circuit to the empty string, and the
collected lines are joined with a newline. -/
def tailFile (content : List Char) (numLines : Int) : Except String String :=
  if utf8Len content = 0 then .ok ""
  else
    (tailLoop content numLines (utf8Len content + 1) (utf8Len content) [] 0 []).map
      (fun ls => String.mk (joinWith ['\n'] ls))

/-- Stated from the claim C5's wording: the last `n` lines (in original order)
of a full read of the file, joined as `tail` joins its result. -/
def lastLinesOfFullRead (content : List Char) (n : Nat) : String :=
  String.mk (joinWith ['\n']
    (((pySplitlines (normalizeLineEndingsCl content)).reverse.take n).reverse))

example : tailFile "a\nb\nc\n".toList 2 = .ok "b\nc" := by decide
example : tailFile "a\nb\nc\n".toList 10 = .ok "a\nb\nc" := by decide
example : tailFile "".toList 5 = .ok "" := by decide
example : tailFile "x".toList 0 = .ok "" := by decide
example : lastLinesOfFullRead "a\nb\nc\n".toList 2 = "b\nc" := by decide
example : tailFile "a\n\nc\n".toList 2 = .ok "\nc" := by decide

/-! ## C5: evaluation lemmas over long single-line stretches -/

theorem pySplitlines_replicate_c (n : Nat) :
    pySplitlines (List.replicate (n + 1) 'c') = [List.replicate (n + 1) 'c'] := by
  induction n with
  | zero => rfl
  | succ k ih =>
    have hstep : pySplitlines (List.replicate (k + 1 + 1) 'c')
        = match pySplitlines (List.replicate (k + 1) 'c') with
          | [] => [['c']]
          | h :: t => ('c' :: h) :: t := by
      rw [List.replicate_succ]; rfl
    rw [hstep, ih]
    rw [List.replicate_succ]; rfl

theorem pySplitlines_replicate_c_pos (n : Nat) (h : 0 < n) :
    pySplitlines (List.replicate n 'c') = [List.replicate n 'c'] := by
  cases n with
  | zero => omega
  | succ k => exact pySplitlines_replicate_c k

theorem normCl_replicate_c (n : Nat) :
    normalizeLineEndingsCl (List.replicate n 'c') = List.replicate n 'c' := by
  induction n with
  | zero => rfl
  | succ k ih =>
    have hstep : normalizeLineEndingsCl (List.replicate (k + 1) 'c')
        = 'c' :: normalizeLineEndingsCl (List.replicate k 'c') := by
      rw [List.replicate_succ]; rfl
    rw [hstep, ih, List.replicate_succ]

/-- The 1026-byte ASCII file exhibiting `tail_file`'s chunk-boundary bug: the
second of its two consecutive newlines sits exactly at the 1024-byte backward
block boundary. -/
def tailContentC5 : List Char := 'x' :: '\n' :: '\n' :: List.replicate 1023 'c'

theorem utf8Len_tailContentC5 : utf8Len tailContentC5 = 1026 := by
  have hc : Char.utf8Size 'c' = 1 := by decide
  have hx : Char.utf8Size 'x' = 1 := by decide
  have hn : Char.utf8Size '\n' = 1 := by decide
  simp [utf8Len, tailContentC5, List.map_replicate, List.sum_replicate, hc, hx, hn]

theorem charsFromByte_tailC5 :
    charsFromByte tailContentC5 2 = some ('\n' :: List.replicate 1023 'c') := rfl

theorem textRead_tailC5_chunk1 :
    textReadChars tailContentC5 2 1024 = some ('\n' :: List.replicate 1023 'c') := by
  unfold textReadChars
  rw [charsFromByte_tailC5]
  show some (List.take 1024 ('\n' :: List.replicate 1023 'c')) = _
  rw [show (1024 : Nat) = ('\n' :: List.replicate 1023 'c').length by simp,
    List.take_length]

theorem tailSplit_tailC5_chunk1 :
    tailSplitChunk (('\n' :: List.replicate 1023 'c') ++ []) = [[], List.replicate 1023 'c'] := by
  rw [List.append_nil]
  unfold tailSplitChunk
  have hn : normalizeLineEndingsCl ('\n' :: List.replicate 1023 'c')
      = '\n' :: normalizeLineEndingsCl (List.replicate 1023 'c') := rfl
  rw [hn, normCl_replicate_c]
  have hs : pySplitlines ('\n' :: List.replicate 1023 'c')
      = [] :: pySplitlines (List.replicate 1023 'c') := rfl
  rw [hs, pySplitlines_replicate_c_pos 1023 (by norm_num)]

theorem tailStep1_tailC5 :
    tailChunkProcess tailContentC5 2 1026 [] 0 [] = some (2, [List.replicate 1023 'c'], 1, []) := by
  unfold tailChunkProcess
  rw [show min 1024 1026 = 1024 from by norm_num]
  rw [show (1026 : Nat) - 1024 = 2 from by norm_num]
  rw [textRead_tailC5_chunk1]
  dsimp only
  rw [tailSplit_tailC5_chunk1]
  rfl

theorem tailStep2_tailC5 :
    tailChunkProcess tailContentC5 2 2 [List.replicate 1023 'c'] 1 []
      = some (0, [['x'], List.replicate 1023 'c'], 2, []) := rfl

theorem tailLoop_tailC5 :
    tailLoop tailContentC5 2 1027 1026 [] 0 [] = .ok [['x'], List.replicate 1023 'c'] := by
  have hu1 : tailLoop tailContentC5 2 1027 1026 [] 0 []
      = if 1026 > 0 ∧ ((0 : Nat) : Int) < 2 then
          match tailChunkProcess tailContentC5 2 1026 [] 0 [] with
          | none => .error "UnicodeDecodeError"
          | some st => tailLoop tailContentC5 2 1026 st.1 st.2.1 st.2.2.1 st.2.2.2
        else .ok [] := rfl
  rw [hu1, if_pos (by norm_num), tailStep1_tailC5]
  dsimp only
  have hu2 : tailLoop tailContentC5 2 1026 2 [List.replicate 1023 'c'] 1 []
      = if 2 > 0 ∧ ((1 : Nat) : Int) < 2 then
          match tailChunkProcess tailContentC5 2 2 [List.replicate 1023 'c'] 1 [] with
          | none => .error "UnicodeDecodeError"
          | some st => tailLoop tailContentC5 2 1025 st.1 st.2.1 st.2.2.1 st.2.2.2
        else .ok [List.replicate 1023 'c'] := rfl
  rw [hu2, if_pos (by norm_num), tailStep2_tailC5]
  dsimp only
  have hu3 : tailLoop tailContentC5 2 1025 0 [['x'], List.replicate 1023 'c'] 2 []
      = if 0 > 0 ∧ ((2 : Nat) : Int) < 2 then
          match tailChunkProcess tailContentC5 2 0 [['x'], List.replicate 1023 'c'] 2 [] with
          | none => .error "UnicodeDecodeError"
          | some st => tailLoop tailContentC5 2 1024 st.1 st.2.1 st.2.2.1 st.2.2.2
        else .ok [['x'], List.replicate 1023 'c'] := rfl
  rw [hu3, if_neg (by norm_num)]

/-- Claim C5 asserts `tail(path, n)` always equals the last `n` lines of a
full read.  On this 1026-byte ASCII file the empty line whose terminator is
the first byte of the final 1024-byte block is silently dropped: the carried
partial line `""` is re-joined by plain string concatenation to the earlier
block ending in a newline, which erases the line boundary between them.
`tail` returns `"x\nccc..."` where the last two lines of a full read are
`"\nccc..."`. -/
theorem tail_drops_line_at_chunk_boundary :
    tailFile tailContentC5 2 = .ok (String.mk ('x' :: '\n' :: List.replicate 1023 'c')) ∧
    lastLinesOfFullRead tailContentC5 2 = String.mk ('\n' :: List.replicate 1023 'c') ∧
    String.mk ('x' :: '\n' :: List.replicate 1023 'c')
      ≠ String.mk ('\n' :: List.replicate 1023 'c') := by
  refine ⟨?_, ?_, ?_⟩
  · unfold tailFile
    rw [utf8Len_tailContentC5, if_neg (by norm_num)]
    rw [tailLoop_tailC5]
    rfl
  · unfold lastLinesOfFullRead
    have hn1 : normalizeLineEndingsCl tailContentC5
        = 'x' :: normalizeLineEndingsCl ('\n' :: '\n' :: List.replicate 1023 'c') := rfl
    have hn2 : normalizeLineEndingsCl ('\n' :: '\n' :: List.replicate 1023 'c')
        = '\n' :: normalizeLineEndingsCl ('\n' :: List.replicate 1023 'c') := rfl
    have hn3 : normalizeLineEndingsCl ('\n' :: List.replicate 1023 'c')
        = '\n' :: normalizeLineEndingsCl (List.replicate 1023 'c') := rfl
    rw [hn1, hn2, hn3, normCl_replicate_c]
    have hs1 : pySplitlines ('x' :: '\n' :: '\n' :: List.replicate 1023 'c')
        = match pySplitlines ('\n' :: '\n' :: List.replicate 1023 'c') with
          | [] => [['x']]
          | h :: t => ('x' :: h) :: t := rfl
    have hs2 : pySplitlines ('\n' :: '\n' :: List.replicate 1023 'c')
        = [] :: pySplitlines ('\n' :: List.replicate 1023 'c') := rfl
    have hs3 : pySplitlines ('\n' :: List.replicate 1023 'c')
        = [] :: pySplitlines (List.replicate 1023 'c') := rfl
    rw [hs1, hs2, hs3, pySplitlines_replicate_c_pos 1023 (by norm_num)]
    rfl
  · intro h
    have hdata := congrArg String.data h
    have hhead := congrArg (fun l => List.headD l ' ') hdata
    exact absurd hhead (by decide)

/-! ## Edit engine: `apply_file_edits` (source lines 247-287) -/

/-- Source `EditOperation`: an exact-text replacement pair. -/
structure EditOp where
  oldText : String
  newText : String
deriving DecidableEq

/-- The `ValueError` message raised when an edit finds no window. -/
def matchNotFoundMsg (ed : EditOp) : String :=
  "Could not find exact match for edit: " ++ ed.oldText

/-- The per-line trimmed window comparison of `apply_file_edits`:
`all(old.strip() == content.strip() for old, content in zip(...))`. -/
def windowMatchesAt (contentLines oldLines : List (List Char)) (i : Nat) : Bool :=
  (oldLines.zip ((contentLines.drop i).take oldLines.length)).all
    (fun pr => pyStripWs pr.1 = pyStripWs pr.2)

/-- The window scan of one edit (source lines 256-266): at the first matching
index, capture the original indentation by splitting the matched line on the
trimmed first old line, re-indent the first new line, and splice.  The error
strings model the CPython exceptions the corresponding operations raise:
indexing an empty list and `str.split` with an empty separator. -/
def scanApply (ed : EditOp) (contentLines oldLines : List (List Char)) :
    List Nat → Except String (List Char)
  | [] => .error (matchNotFoundMsg ed)
  | i :: is =>
    if windowMatchesAt contentLines oldLines i then
      match contentLines.drop i with
      | [] => .error "IndexError: list index out of range"
      | cl :: _ =>
        match oldLines with
        | [] => .error "IndexError: list index out of range"
        | ol0 :: _ =>
          if pyStripWs ol0 = [] then .error "ValueError: empty separator"
          else
            match pySplitlines (normalizeLineEndingsCl ed.newText.toList) with
            | [] => .error "IndexError: list index out of range"
            | nl0 :: nlt =>
              .ok (joinWith ['\n'] (contentLines.take i
                ++ (splitHead (pyStripWs ol0) cl ++ pyLstripWs nl0) :: nlt
                ++ contentLines.drop (i + oldLines.length)))
    else scanApply ed contentLines oldLines is

/-- One edit applied to the current content (lines 252-266 for a single loop
iteration): Python's `range(len(content_lines) - len(old_lines) + 1)` is empty
when the old text has more lines than the content. -/
def applyEdit (modifiedContent : List Char) (ed : EditOp) : Except String (List Char) :=
  if (pySplitlines (normalizeLineEndingsCl ed.oldText.toList)).length
      > (pySplitlines modifiedContent).length then
    .error (matchNotFoundMsg ed)
  else
    scanApply ed (pySplitlines modifiedContent)
      (pySplitlines (normalizeLineEndingsCl ed.oldText.toList))
      (List.range ((pySplitlines modifiedContent).length
        - (pySplitlines (normalizeLineEndingsCl ed.oldText.toList)).length + 1))

/-- The edit loop (source lines 252-269): strictly in order, each edit sees
the result of the previous one, and the first failure aborts the batch. -/
def applyEditsLoop (content : List Char) : List EditOp → Except String (List Char)
  | [] => .ok content
  | ed :: rest =>
    match applyEdit content ed with
    | .error e => .error e
    | .ok c2 => applyEditsLoop c2 rest

example : applyEditsLoop (normalizeLineEndingsCl "hello\nworld\n".toList)
    [⟨"world", "there"⟩] = .ok "hello\nthere".toList := by decide

example : applyEditsLoop "a\n  b".toList [⟨"b", "c\nd"⟩] = .ok "a\n  c\nd".toList := by
  decide


/-! ## `difflib.unified_diff` (CPython), used by `create_unified_diff`
(source lines 164-174).  `unified_diff` constructs
`SequenceMatcher(None, a, b)`: no junk predicate, so the junk set is empty and
the two junk-extension loops of `find_longest_match` never move; only the
autojunk "popular" pruning of `b2j` remains, which the embedding keeps. -/

/-- Association lookup for the `b2j` map (CPython dict with list values,
insertion ordered). -/
def assocFind (m : List (List Char × List Nat)) (k : List Char) : Option (List Nat) :=
  match m with
  | [] => none
  | (k2, v) :: rest => if k2 = k then some v else assocFind rest k

/-- Append an index to a key's list, `b2j.setdefault(elt, []).append(i)`. -/
def assocAppendIdx (m : List (List Char × List Nat)) (k : List Char) (i : Nat) :
    List (List Char × List Nat) :=
  match m with
  | [] => [(k, [i])]
  | (k2, v) :: rest =>
    if k2 = k then (k2, v ++ [i]) :: rest else (k2, v) :: assocAppendIdx rest k i

/-- Build `b2j` by enumerating `b`. -/
def buildB2jGo (i : Nat) (m : List (List Char × List Nat)) :
    List (List Char) → List (List Char × List Nat)
  | [] => m
  | line :: rest => buildB2jGo (i + 1) (assocAppendIdx m line i) rest

/-- CPython `SequenceMatcher.__chain_b` with `isjunk=None`: the raw `b2j` map
minus the autojunk-popular entries (only when `len(b) >= 200`). -/
def b2jWithAutojunk (b : List (List Char)) : List (List Char × List Nat) :=
  if b.length ≥ 200 then
    (buildB2jGo 0 [] b).filter (fun kv => ¬ kv.2.length > b.length / 100 + 1)
  else buildB2jGo 0 [] b

/-- Lookup in the `j2len` dict. -/
def natAssocFind (m : List (Nat × Nat)) (k : Nat) : Option Nat :=
  match m with
  | [] => none
  | (k2, v) :: rest => if k2 = k then some v else natAssocFind rest k

/-- Store in the `newj2len` dict. -/
def natAssocSet (m : List (Nat × Nat)) (k v : Nat) : List (Nat × Nat) :=
  match m with
  | [] => [(k, v)]
  | (k2, v2) :: rest =>
    if k2 = k then (k2, v) :: rest else (k2, v2) :: natAssocSet rest k v

/-- Inner loop of `find_longest_match` over `b2j[a[i]]`, with Python's
`continue` below `blo` and `break` at `bhi`; `j2len.get(j-1, 0)` is zero when
`j` is zero, since no negative key exists. -/
def flmJsLoop (i blo bhi : Nat) (j2len : List (Nat × Nat)) :
    List Nat → List (Nat × Nat) → Nat × Nat × Nat → List (Nat × Nat) × (Nat × Nat × Nat)
  | [], newj2len, best => (newj2len, best)
  | j :: js, newj2len, best =>
    if j < blo then flmJsLoop i blo bhi j2len js newj2len best
    else if bhi ≤ j then (newj2len, best)
    else
      let k := (if j = 0 then 0 else (natAssocFind j2len (j - 1)).getD 0) + 1
      flmJsLoop i blo bhi j2len js (natAssocSet newj2len j k)
        (if k > best.2.2 then (i + 1 - k, j + 1 - k, k) else best)

/-- Outer loop of `find_longest_match` over `i in range(alo, ahi)`. -/
def flmOuter (a : List (List Char)) (b2j : List (List Char × List Nat)) (blo bhi : Nat) :
    List Nat → List (Nat × Nat) → Nat × Nat × Nat → Nat × Nat × Nat
  | [], _, best => best
  | i :: is, j2len, best =>
    flmOuter a b2j blo bhi is
      (flmJsLoop i blo bhi j2len ((assocFind b2j (a.getD i [])).getD []) [] best).1
      (flmJsLoop i blo bhi j2len ((assocFind b2j (a.getD i [])).getD []) [] best).2

/-- Backward extension of the best match (`while besti > alo and ...`); with
an empty junk set the junk guard is vacuous.  Fuel `besti` bounds the walk. -/
def extendBack (a b : List (List Char)) (alo blo : Nat) :
    Nat → Nat → Nat → Nat → Nat × Nat × Nat
  | 0, besti, bestj, bestsize => (besti, bestj, bestsize)
  | fuel + 1, besti, bestj, bestsize =>
    if alo < besti ∧ blo < bestj ∧ a.getD (besti - 1) [] = b.getD (bestj - 1) [] then
      extendBack a b alo blo fuel (besti - 1) (bestj - 1) (bestsize + 1)
    else (besti, bestj, bestsize)

/-- Forward extension of the best match; fuel `ahi` bounds the walk. -/
def extendFwd (a b : List (List Char)) (ahi bhi : Nat) :
    Nat → Nat → Nat → Nat → Nat
  | 0, _, _, bestsize => bestsize
  | fuel + 1, besti, bestj, bestsize =>
    if besti + bestsize < ahi ∧ bestj + bestsize < bhi
        ∧ a.getD (besti + bestsize) [] = b.getD (bestj + bestsize) [] then
      extendFwd a b ahi bhi fuel besti bestj (bestsize + 1)
    else bestsize

/-- CPython `SequenceMatcher.find_longest_match` restricted to an empty junk
set, as `unified_diff` uses it. -/
def findLongestMatch (a b : List (List Char)) (b2j : List (List Char × List Nat))
    (alo ahi blo bhi : Nat) : Nat × Nat × Nat :=
  match flmOuter a b2j blo bhi (List.range' alo (ahi - alo)) [] (alo, blo, 0) with
  | (bi, bj, bs) =>
    match extendBack a b alo blo bi bi bj bs with
    | (bi2, bj2, bs2) => (bi2, bj2, extendFwd a b ahi bhi ahi bi2 bj2 bs2)

/-- The recursive splitting of `get_matching_blocks`; CPython uses an explicit
queue and sorts the collected blocks afterwards, which yields exactly this
recursion's left-to-right order.  Fuel `la + lb + 1` dominates the recursion
depth, since each split strictly shrinks the interval sum. -/
def matchingBlocksRec (a b : List (List Char)) (b2j : List (List Char × List Nat)) :
    Nat → Nat → Nat → Nat → Nat → List (Nat × Nat × Nat)
  | 0, _, _, _, _ => []
  | fuel + 1, alo, ahi, blo, bhi =>
    match findLongestMatch a b b2j alo ahi blo bhi with
    | (bi, bj, bs) =>
      if bs = 0 then []
      else matchingBlocksRec a b b2j fuel alo bi blo bj
        ++ (bi, bj, bs) :: matchingBlocksRec a b b2j fuel (bi + bs) ahi (bj + bs) bhi

/-- The adjacent-block merging pass of `get_matching_blocks`. -/
def mergeAdjacent : Nat × Nat × Nat → List (Nat × Nat × Nat) → List (Nat × Nat × Nat)
  | (i1, j1, k1), [] => if k1 ≠ 0 then [(i1, j1, k1)] else []
  | (i1, j1, k1), (i2, j2, k2) :: rest =>
    if i1 + k1 = i2 ∧ j1 + k1 = j2 then mergeAdjacent (i1, j1, k1 + k2) rest
    else if k1 ≠ 0 then (i1, j1, k1) :: mergeAdjacent (i2, j2, k2) rest
    else mergeAdjacent (i2, j2, k2) rest

/-- CPython `SequenceMatcher.get_matching_blocks`, with the terminating
sentinel block. -/
def getMatchingBlocks (a b : List (List Char)) : List (Nat × Nat × Nat) :=
  mergeAdjacent (0, 0, 0)
    (matchingBlocksRec a b (b2jWithAutojunk b) (a.length + b.length + 1) 0 a.length 0 b.length)
  ++ [(a.length, b.length, 0)]

/-- Opcode tags of `SequenceMatcher.get_opcodes`. -/
inductive DTag where
  | replace
  | delete
  | insert
  | equal
deriving DecidableEq

/-- One opcode: a tag with its `a` and `b` ranges. -/
structure DOp where
  tag : DTag
  i1 : Nat
  i2 : Nat
  j1 : Nat
  j2 : Nat
deriving DecidableEq

/-- CPython `SequenceMatcher.get_opcodes` from the matching blocks. -/
def getOpcodesGo (i j : Nat) : List (Nat × Nat × Nat) → List DOp
  | [] => []
  | (ai, bj, size) :: rest =>
    (if i < ai ∧ j < bj then [⟨DTag.replace, i, ai, j, bj⟩]
     else if i < ai then [⟨DTag.delete, i, ai, j, bj⟩]
     else if j < bj then [⟨DTag.insert, i, ai, j, bj⟩]
     else [])
    ++ (if size ≠ 0 then [⟨DTag.equal, ai, ai + size, bj, bj + size⟩] else [])
    ++ getOpcodesGo (ai + size) (bj + size) rest

def getOpcodes (a b : List (List Char)) : List DOp :=
  getOpcodesGo 0 0 (getMatchingBlocks a b)

/-- `get_grouped_opcodes`: trim a leading equal run to `n` context lines. -/
def fixHead (n : Nat) : List DOp → List DOp
  | [] => []
  | op :: rest =>
    (if op.tag = DTag.equal then
      { op with i1 := max op.i1 (op.i2 - n), j1 := max op.j1 (op.j2 - n) }
     else op) :: rest

/-- `get_grouped_opcodes`: trim a trailing equal run to `n` context lines. -/
def fixLast (n : Nat) : List DOp → List DOp
  | [] => []
  | [op] =>
    [if op.tag = DTag.equal then
      { op with i2 := min op.i2 (op.i1 + n), j2 := min op.j2 (op.j1 + n) }
     else op]
  | op :: rest => op :: fixLast n rest

/-- The grouping loop of `get_grouped_opcodes`: a long interior equal run
closes the current group (with `n` trailing context lines) and opens the next
(with `n` leading ones); a final group consisting of a single equal opcode is
not yielded. -/
def groupGo (n : Nat) : List DOp → List DOp → List (List DOp)
  | [], group =>
    match group with
    | [] => []
    | [g] => if g.tag = DTag.equal then [] else [[g]]
    | _ => [group]
  | op :: rest, group =>
    if op.tag = DTag.equal ∧ op.i2 - op.i1 > n + n then
      (group ++ [{ op with i2 := min op.i2 (op.i1 + n), j2 := min op.j2 (op.j1 + n) }])
        :: groupGo n rest [{ op with i1 := max op.i1 (op.i2 - n), j1 := max op.j1 (op.j2 - n) }]
    else groupGo n rest (group ++ [op])

/-- CPython `SequenceMatcher.get_grouped_opcodes(n)`. -/
def getGroupedOpcodes (n : Nat) (a b : List (List Char)) : List (List DOp) :=
  groupGo n
    (fixLast n (fixHead n
      (match getOpcodes a b with
       | [] => [⟨DTag.equal, 0, 1, 0, 1⟩]
       | c :: cs => c :: cs)))
    []

/-- CPython `difflib._format_range_unified`. -/
def formatRangeUnified (start stop : Nat) : List Char :=
  if stop - start = 1 then (toString (start + 1)).toList
  else (toString (if stop - start = 0 then start else start + 1)).toList
    ++ ',' :: (toString (stop - start)).toList

/-- The lines one opcode contributes to a unified-diff hunk. -/
def opLines (a b : List (List Char)) (op : DOp) : List (List Char) :=
  if op.tag = DTag.equal then ((a.drop op.i1).take (op.i2 - op.i1)).map (fun l => ' ' :: l)
  else
    (if op.tag = DTag.replace ∨ op.tag = DTag.delete then
      ((a.drop op.i1).take (op.i2 - op.i1)).map (fun l => '-' :: l)
     else [])
    ++ (if op.tag = DTag.replace ∨ op.tag = DTag.insert then
      ((b.drop op.j1).take (op.j2 - op.j1)).map (fun l => '+' :: l)
     else [])

/-- One hunk: the `@@` header (with the default `lineterm="\n"`) followed by
the group's lines. -/
def hunkLines (a b : List (List Char)) (group : List DOp) : List (List Char) :=
  match group with
  | [] => []
  | g0 :: _ =>
    ("@@ -".toList ++ formatRangeUnified g0.i1 (List.getLastD group g0).i2
      ++ " +".toList ++ formatRangeUnified g0.j1 (List.getLastD group g0).j2
      ++ " @@".toList ++ ['\n'])
    :: (group.map (opLines a b)).flatten

/-- CPython `difflib.unified_diff(a, b, fromfile, tofile, fromfiledate,
tofiledate, n)` with the default `lineterm`: the generated lines, headers
first (only when at least one group exists). -/
def unifiedDiffLines (a b : List (List Char))
    (fromfile tofile fromfiledate tofiledate : String) (n : Nat) : List (List Char) :=
  match getGroupedOpcodes n a b with
  | [] => []
  | g :: gs =>
    ("--- ".toList ++ fromfile.toList
      ++ (if fromfiledate ≠ "" then '\t' :: fromfiledate.toList else []) ++ ['\n'])
    :: ("+++ ".toList ++ tofile.toList
      ++ (if tofiledate ≠ "" then '\t' :: tofiledate.toList else []) ++ ['\n'])
    :: ((g :: gs).map (hunkLines a b)).flatten

/-- Source `create_unified_diff` (lines 164-174): normalize both sides, run
`unified_diff` with three context lines and the file path on both sides, and
join the generated lines with a newline. -/
def createUnifiedDiff (original modified : List Char) (filepath : String) : List Char :=
  joinWith ['\n'] (unifiedDiffLines
    (pySplitlines (normalizeLineEndingsCl original))
    (pySplitlines (normalizeLineEndingsCl modified))
    filepath filepath "original" "modified" 3)

example : createUnifiedDiff (normalizeLineEndingsCl "hello\nworld\n".toList)
      "hello\nthere".toList "/sandbox/a.txt"
    = ("--- /sandbox/a.txt\toriginal\n\n+++ /sandbox/a.txt\tmodified\n\n"
      ++ "@@ -1,2 +1,2 @@\n\n hello\n-world\n+there").toList := by
  decide

/-! ## Fence widening and `apply_file_edits` (source lines 270-287) -/

/-- The fence string `'```' * n`. -/
def fenceChars (n : Nat) : List Char := (List.replicate n "```".toList).flatten

/-- The widening loop `while "```" * num_backticks in diff: num_backticks += 1`
starting from 3, with fuel: once `3 * k` exceeds the diff length the fence can
no longer occur, so fuel `diff.length + 1` always reaches the loop's own exit
condition. -/
def fenceLoopFuel : Nat → Nat → List Char → Nat
  | 0, k, _ => k
  | fuel + 1, k, diff =>
    if containsSub (fenceChars k) diff then fenceLoopFuel fuel (k + 1) diff else k

/-- The chosen fence repeat count for a diff body. -/
def fenceCount (diff : List Char) : Nat := fenceLoopFuel (diff.length + 1) 3 diff

/-- Source `apply_file_edits` (lines 247-287), diff-producing part: run the
edit loop on the normalized content, compute the unified diff and wrap it in
the widened fence (the write-back is modeled by `editPersistedContent`). -/
def applyFileEdits (fileContent : String) (edits : List EditOp) (dryRun : Bool)
    (filePath : String) : Except String String :=
  match applyEditsLoop (normalizeLineEndingsCl fileContent.toList) edits with
  | .error e => .error e
  | .ok modified =>
    .ok (String.mk
      (fenceChars (fenceCount (createUnifiedDiff (normalizeLineEndingsCl fileContent.toList)
          modified filePath))
        ++ "diff\n".toList
        ++ createUnifiedDiff (normalizeLineEndingsCl fileContent.toList) modified filePath
        ++ '\n' :: fenceChars (fenceCount (createUnifiedDiff
          (normalizeLineEndingsCl fileContent.toList) modified filePath))
        ++ ['\n']))

/-- The file's on-disk content after an `apply_file_edits` call (source lines
275-286): unchanged when any edit fails (the loop raises before the write) or
when `dry_run` is set; otherwise the modified content, installed by the
write-to-temp-then-rename of lines 276-280 (whose failure paths also leave the
original file in place). -/
def editPersistedContent (fileContent : String) (edits : List EditOp) (dryRun : Bool) :
    String :=
  match applyEditsLoop (normalizeLineEndingsCl fileContent.toList) edits with
  | .error _ => fileContent
  | .ok modified => if dryRun then fileContent else String.mk modified

/-! ## C7 lemmas: the chosen fence never occurs in the diff body -/

theorem isPrefixOf_length_le (a b : List Char) (h : a.isPrefixOf b = true) :
    a.length ≤ b.length := by
  induction a generalizing b with
  | nil => simp
  | cons x xs ih =>
    cases b with
    | nil => simp [List.isPrefixOf] at h
    | cons y ys =>
      simp only [List.isPrefixOf, Bool.and_eq_true] at h
      simpa using ih ys h.2

theorem isPrefixOf_trans (a b c : List Char) (h1 : a.isPrefixOf b = true)
    (h2 : b.isPrefixOf c = true) : a.isPrefixOf c = true := by
  induction a generalizing b c with
  | nil => simp [List.isPrefixOf]
  | cons x xs ih =>
    cases b with
    | nil => simp [List.isPrefixOf] at h1
    | cons y ys =>
      cases c with
      | nil => simp [List.isPrefixOf] at h2
      | cons z zs =>
        simp only [List.isPrefixOf, Bool.and_eq_true, beq_iff_eq] at h1 h2 ⊢
        exact ⟨h1.1.trans h2.1, ih ys zs h1.2 h2.2⟩

theorem isPrefixOf_self (a : List Char) : a.isPrefixOf a = true := by
  induction a with
  | nil => rfl
  | cons x xs ih => simp [List.isPrefixOf, ih]

theorem containsSub_length (pat l : List Char) (h : containsSub pat l = true) :
    pat.length ≤ l.length := by
  induction l with
  | nil =>
    unfold containsSub at h
    cases pat with
    | nil => simp
    | cons c cs => simp [List.isPrefixOf] at h
  | cons c rest ih =>
    unfold containsSub at h
    simp only [Bool.or_eq_true] at h
    rcases h with h1 | h2
    · exact isPrefixOf_length_le _ _ h1
    · exact (ih h2).trans (by simp)

theorem containsSub_of_prefixOf (p1 p2 l : List Char) (hp : p1.isPrefixOf p2 = true)
    (h : containsSub p2 l = true) : containsSub p1 l = true := by
  induction l with
  | nil =>
    unfold containsSub at h ⊢
    exact isPrefixOf_trans _ _ _ hp h
  | cons c rest ih =>
    unfold containsSub at h ⊢
    simp only [Bool.or_eq_true] at h ⊢
    rcases h with h1 | h2
    · exact Or.inl (isPrefixOf_trans _ _ _ hp h1)
    · exact Or.inr (ih h2)

theorem fenceChars_length (n : Nat) : (fenceChars n).length = 3 * n := by
  induction n with
  | zero => rfl
  | succ k ih =>
    unfold fenceChars at ih ⊢
    rw [List.replicate_succ, List.flatten_cons, List.length_append, ih,
      show ("```".toList).length = 3 from by decide]
    omega

theorem fenceChars_append (m n : Nat) : fenceChars (m + n) = fenceChars m ++ fenceChars n := by
  unfold fenceChars
  rw [List.replicate_add, List.flatten_append]

theorem fenceChars_mono_isPrefixOf (m n : Nat) (h : m ≤ n) :
    (fenceChars m).isPrefixOf (fenceChars n) = true := by
  obtain ⟨d, rfl⟩ := Nat.exists_eq_add_of_le h
  rw [fenceChars_append]
  exact isPrefixOf_append_of _ _ _ (isPrefixOf_self _)

theorem fenceLoopFuel_spec (diff : List Char) (fuel : Nat) :
    ∀ k, diff.length < 3 * k + 3 * fuel →
      containsSub (fenceChars (fenceLoopFuel fuel k diff)) diff = false ∧
      k ≤ fenceLoopFuel fuel k diff := by
  induction fuel with
  | zero =>
    intro k hk
    refine ⟨?_, Nat.le_refl k⟩
    cases hc : containsSub (fenceChars k) diff with
    | false => exact hc
    | true =>
      have := containsSub_length _ _ hc
      rw [fenceChars_length] at this
      omega
  | succ fuel ih =>
    intro k hk
    have hstep : fenceLoopFuel (fuel + 1) k diff
        = if containsSub (fenceChars k) diff then fenceLoopFuel fuel (k + 1) diff else k := rfl
    cases hc : containsSub (fenceChars k) diff with
    | false =>
      rw [hstep, hc]
      exact ⟨by simpa using hc, Nat.le_refl k⟩
    | true =>
      rw [hstep, hc]
      simp only [if_true]
      have h2 := ih (k + 1) (by omega)
      exact ⟨h2.1, by omega⟩

theorem fenceCount_spec (diff : List Char) :
    containsSub (fenceChars (fenceCount diff)) diff = false ∧
    ∀ m, containsSub (fenceChars m) diff = true → m < fenceCount diff := by
  have h := fenceLoopFuel_spec diff (diff.length + 1) 3 (by omega)
  have h1 : containsSub (fenceChars (fenceCount diff)) diff = false := h.1
  refine ⟨h1, ?_⟩
  intro m hm
  by_contra hge
  push_neg at hge
  have hocc : containsSub (fenceChars (fenceCount diff)) diff = true :=
    containsSub_of_prefixOf _ _ _ (fenceChars_mono_isPrefixOf _ _ hge) hm
  rw [hocc] at h1
  exact absurd h1 (by decide)

/-- Claim C7: on a successful edit batch, the produced output is the unified
diff wrapped in a fence of `fenceCount` repetitions of three backticks, the
chosen fence string does not occur as a substring of the diff body, and the
repeat count is strictly greater than any repeat count whose fence does occur
in the body — so the fenced output re-parses unambiguously. -/
theorem edit_fence_unambiguous (fileContent : String) (edits : List EditOp) (dryRun2 : Bool)
    (filePath : String) (modified : List Char)
    (h : applyEditsLoop (normalizeLineEndingsCl fileContent.toList) edits = .ok modified) :
    applyFileEdits fileContent edits dryRun2 filePath
      = .ok (String.mk
        (fenceChars (fenceCount (createUnifiedDiff (normalizeLineEndingsCl fileContent.toList)
            modified filePath))
          ++ "diff\n".toList
          ++ createUnifiedDiff (normalizeLineEndingsCl fileContent.toList) modified filePath
          ++ '\n' :: fenceChars (fenceCount (createUnifiedDiff
            (normalizeLineEndingsCl fileContent.toList) modified filePath))
          ++ ['\n'])) ∧
    containsSub
      (fenceChars (fenceCount (createUnifiedDiff (normalizeLineEndingsCl fileContent.toList)
        modified filePath)))
      (createUnifiedDiff (normalizeLineEndingsCl fileContent.toList) modified filePath)
      = false ∧
    ∀ m, containsSub (fenceChars m)
        (createUnifiedDiff (normalizeLineEndingsCl fileContent.toList) modified filePath)
        = true →
      m < fenceCount (createUnifiedDiff (normalizeLineEndingsCl fileContent.toList)
        modified filePath) := by
  refine ⟨?_, (fenceCount_spec _).1, (fenceCount_spec _).2⟩
  unfold applyFileEdits
  rw [h]

theorem edit_fence_unambiguous_witness :
    containsSub
      (fenceChars (fenceCount (createUnifiedDiff
        (normalizeLineEndingsCl "hello\nworld\n".toList) "hello\nthere".toList
        "/sandbox/a.txt")))
      (createUnifiedDiff (normalizeLineEndingsCl "hello\nworld\n".toList)
        "hello\nthere".toList "/sandbox/a.txt") = false :=
  (edit_fence_unambiguous "hello\nworld\n" [⟨"world", "there"⟩] false "/sandbox/a.txt"
    "hello\nthere".toList (by decide)).2.1

/-! ## C3: dry-run and no-partial-persistence; C10: blank first old line -/

/-- Whether an edit's old text has some matching window in the content under
the scan's trimmed comparison (over exactly the indices Python scans). -/
def edHasMatch (content : List Char) (ed : EditOp) : Bool :=
  decide ((pySplitlines (normalizeLineEndingsCl ed.oldText.toList)).length
      ≤ (pySplitlines content).length)
  && (List.range ((pySplitlines content).length
      - (pySplitlines (normalizeLineEndingsCl ed.oldText.toList)).length + 1)).any
    (fun i => windowMatchesAt (pySplitlines content)
      (pySplitlines (normalizeLineEndingsCl ed.oldText.toList)) i)

theorem scanApply_no_match (ed : EditOp) (cl ol : List (List Char)) (idxs : List Nat)
    (h : ∀ i ∈ idxs, windowMatchesAt cl ol i = false) :
    scanApply ed cl ol idxs = .error (matchNotFoundMsg ed) := by
  induction idxs with
  | nil => rfl
  | cons i is ih =>
    unfold scanApply
    rw [if_neg (by rw [h i (List.mem_cons_self i is)]; simp)]
    exact ih (fun j hj => h j (List.mem_cons_of_mem i hj))

/-- Claim C3: `dryRun=true` never changes the persisted content; any failure
of the edit loop leaves the content unchanged (no partial edit is persisted);
the content changes only to a full success's result; and a first edit with no
matching window aborts the whole batch with the match-not-found error. -/
theorem edit_dry_run_and_no_partial_persist (fileContent : String) (edits : List EditOp) :
    editPersistedContent fileContent edits true = fileContent ∧
    (∀ e, applyEditsLoop (normalizeLineEndingsCl fileContent.toList) edits = .error e →
      editPersistedContent fileContent edits false = fileContent) ∧
    (∀ m, applyEditsLoop (normalizeLineEndingsCl fileContent.toList) edits = .ok m →
      editPersistedContent fileContent edits false = String.mk m) ∧
    (∀ ed rest, edits = ed :: rest →
      edHasMatch (normalizeLineEndingsCl fileContent.toList) ed = false →
      applyEditsLoop (normalizeLineEndingsCl fileContent.toList) edits
        = .error (matchNotFoundMsg ed)) := by
  refine ⟨?_, ?_, ?_, ?_⟩
  · unfold editPersistedContent
    cases hl : applyEditsLoop (normalizeLineEndingsCl fileContent.toList) edits with
    | ok m => simp
    | error e => rfl
  · intro e he
    unfold editPersistedContent
    rw [he]
  · intro m hm
    unfold editPersistedContent
    rw [hm]
    simp
  · intro ed rest hedits hnomatch
    subst hedits
    have happ : applyEdit (normalizeLineEndingsCl fileContent.toList) ed
        = .error (matchNotFoundMsg ed) := by
      unfold applyEdit
      by_cases hgt : (pySplitlines (normalizeLineEndingsCl ed.oldText.toList)).length
          > (pySplitlines (normalizeLineEndingsCl fileContent.toList)).length
      · rw [if_pos hgt]
      · rw [if_neg hgt]
        apply scanApply_no_match
        intro i hi
        unfold edHasMatch at hnomatch
        rw [Bool.and_eq_false_iff] at hnomatch
        rcases hnomatch with h1 | h2
        · exact absurd (by omega : (pySplitlines
            (normalizeLineEndingsCl ed.oldText.toList)).length
              ≤ (pySplitlines (normalizeLineEndingsCl fileContent.toList)).length)
            (by simpa using h1)
        · have := List.any_eq_false.mp h2
          simpa using this i hi
    unfold applyEditsLoop
    rw [happ]

theorem edit_dry_run_and_no_partial_persist_witness :
    editPersistedContent "hello\nworld\n" [⟨"zzz", "y"⟩] false = "hello\nworld\n" :=
  (edit_dry_run_and_no_partial_persist "hello\nworld\n" [⟨"zzz", "y"⟩]).2.1
    (matchNotFoundMsg ⟨"zzz", "y"⟩) (by decide)

theorem scanApply_blank_first (ed : EditOp) (cl ol : List (List Char)) (idxs : List Nat)
    (hblank : pyStripWs (ol.headD []) = [])
    (hex : ∃ i ∈ idxs, windowMatchesAt cl ol i = true) :
    ∃ e, scanApply ed cl ol idxs = .error e ∧
      (e = "ValueError: empty separator" ∨ e = "IndexError: list index out of range") := by
  induction idxs with
  | nil => simp at hex
  | cons i is ih =>
    by_cases hm : windowMatchesAt cl ol i = true
    · unfold scanApply
      rw [if_pos hm]
      cases hdrop : cl.drop i with
      | nil => exact ⟨_, rfl, Or.inr rfl⟩
      | cons cl0 clRest =>
        cases ol with
        | nil => exact ⟨_, rfl, Or.inr rfl⟩
        | cons ol0 olt =>
          have hsep : pyStripWs ol0 = [] := by simpa using hblank
          dsimp only
          rw [if_pos hsep]
          exact ⟨_, rfl, Or.inl rfl⟩
    · unfold scanApply
      rw [if_neg hm]
      apply ih
      obtain ⟨j, hj, hmj⟩ := hex
      rcases List.mem_cons.mp hj with rfl | hj2
      · exact absurd hmj hm
      · exact ⟨j, hj2, hmj⟩

/-- Claim C10: an edit whose old text's first line trims to nothing (empty or
whitespace-only, including an empty old text, whose line list is empty) can
never be applied: whenever some window matches, the indentation-capture step
`content_lines[i].split(old_lines[0].strip())[0]` raises — an empty separator
`ValueError`, or an `IndexError` on the degenerate empty-list indexings — so
`apply_file_edits` aborts with an error instead of performing the
replacement. -/
theorem blank_first_line_edit_always_errors (content : List Char) (ed : EditOp)
    (hblank : pyStripWs ((pySplitlines (normalizeLineEndingsCl ed.oldText.toList)).headD [])
      = [])
    (hmatch : edHasMatch content ed = true) :
    ∃ e, applyEdit content ed = .error e ∧
      (e = "ValueError: empty separator" ∨ e = "IndexError: list index out of range") := by
  unfold edHasMatch at hmatch
  rw [Bool.and_eq_true] at hmatch
  have hle := of_decide_eq_true hmatch.1
  have hex := List.any_eq_true.mp hmatch.2
  unfold applyEdit
  rw [if_neg (by omega)]
  exact scanApply_blank_first ed _ _ _ hblank
    (by obtain ⟨i, hi, hmi⟩ := hex; exact ⟨i, hi, hmi⟩)

theorem blank_first_line_edit_always_errors_witness :
    ∃ e, applyEdit " \nfoo".toList ⟨"\nfoo", "bar"⟩ = .error e ∧
      (e = "ValueError: empty separator" ∨ e = "IndexError: list index out of range") :=
  blank_first_line_edit_always_errors " \nfoo".toList ⟨"\nfoo", "bar"⟩ (by decide) (by decide)

/-! ## C4: the concrete edit scenario -/

/-- Stated from the claim C4's wording: the number of removed lines a unified
diff shows — lines opening with a minus, the `---` header excluded. -/
def diffRemovedCount (diff : List Char) : Nat :=
  ((splitOnChar '\n' diff).filter
    (fun l => "-".toList.isPrefixOf l && !("---".toList.isPrefixOf l))).length

/-- Stated from the claim C4's wording: the number of added lines a unified
diff shows — lines opening with a plus, the `+++` header excluded. -/
def diffAddedCount (diff : List Char) : Nat :=
  ((splitOnChar '\n' diff).filter
    (fun l => "+".toList.isPrefixOf l && !("+++".toList.isPrefixOf l))).length

/-- Claim C4 says the file ends as `"hello\nthere\n"`; it actually ends as
`"hello\nthere"`: the loop re-joins `content.splitlines()` with `"\n"`, which
drops the original trailing newline. -/
theorem edit_scenario_trailing_newline_lost :
    editPersistedContent "hello\nworld\n" [⟨"world", "there"⟩] false ≠ "hello\nthere\n" := by
  decide

/-- Amended C4: the file becomes `"hello\nthere"` (the trailing newline is
dropped by the splitlines/join round trip), and the produced unified diff
shows exactly one removed and one added line inside the widened fence. -/
theorem edit_scenario_result_and_diff :
    editPersistedContent "hello\nworld\n" [⟨"world", "there"⟩] false = "hello\nthere" ∧
    diffRemovedCount (createUnifiedDiff (normalizeLineEndingsCl "hello\nworld\n".toList)
      "hello\nthere".toList "/sandbox/a.txt") = 1 ∧
    diffAddedCount (createUnifiedDiff (normalizeLineEndingsCl "hello\nworld\n".toList)
      "hello\nthere".toList "/sandbox/a.txt") = 1 ∧
    applyFileEdits "hello\nworld\n" [⟨"world", "there"⟩] false "/sandbox/a.txt"
      = .ok ("`````````diff\n--- /sandbox/a.txt\toriginal\n\n+++ /sandbox/a.txt\tmodified\n\n@@ -1,2 +1,2 @@\n\n hello\n-world\n+there\n`````````\n") := by
  refine ⟨by decide, by decide, by decide, by decide⟩

/-! ## C8: tool payload shapes (`read_file` lines 303-320, `write_file` lines
343-365) -/

/-- The JSON payload shapes the tools return: exactly one key, `content`,
`message`, or `error`. -/
inductive Payload where
  | contentP (s : String)
  | messageP (s : String)
  | errorP (s : String)
deriving DecidableEq

/-- Python `str(e)` for the modeled OS errors. -/
def osErrStr : OsErr → String
  | .fileExists => "FileExistsError"
  | .fileNotFound => "FileNotFoundError"
  | .isADirectory => "IsADirectoryError"
  | .notSupported => "UnsupportedOperation"

/-- Parsed `ReadFileArgs`. -/
structure ReadFileArgsM where
  path : String
  tail : Option Int
  head : Option Int
deriving DecidableEq

/-- Python truthiness of an optional integer field (`if parsed.head and
parsed.tail`): present and nonzero. -/
def truthy : Option Int → Bool
  | none => false
  | some n => n ≠ 0

/-- Forward line iteration of a text file (`for line in f`), keeping each
line's terminator; carriage returns are out of the modeled scope as in
`charsFromByte`. -/
def pyFileLines : List Char → List (List Char)
  | [] => []
  | c :: rest =>
    if c = '\n' then ['\n'] :: pyFileLines rest
    else
      match pyFileLines rest with
      | [] => [[c]]
      | h :: t => (c :: h) :: t

/-- Source `head_file` (lines 236-244): first `num_lines` lines, each
`rstrip("\n")`-ed, joined with a newline. -/
def headFile (content : List Char) (numLines : Int) : String :=
  String.mk (joinWith ['\n']
    (((pyFileLines content).take (if numLines ≤ 0 then 0 else numLines.toNat)).map
      (fun l => dropEndWhile (fun c => c = '\n') l)))

example : headFile "a\nb\nc\n".toList 2 = "a\nb" := by decide

/-- `tail_file` on a validated path of the filesystem model. -/
def tailFileFs (fs : Fs) (p : String) (n : Int) : Except String String :=
  match fsLookup fs (strComps p) with
  | some (.file c) => tailFile c n
  | some .dir => .error "IsADirectoryError"
  | some (.symlink _) => .error "UnsupportedOperation"
  | none => .error "FileNotFoundError"

/-- `head_file` on a validated path of the filesystem model. -/
def headFileFs (fs : Fs) (p : String) (n : Int) : Except String String :=
  match fsLookup fs (strComps p) with
  | some (.file c) => .ok (headFile c n)
  | some .dir => .error "IsADirectoryError"
  | some (.symlink _) => .error "UnsupportedOperation"
  | none => .error "FileNotFoundError"

/-- Source tool `read_file` (lines 303-320): head/tail exclusivity check,
validation, then one of the three readers; every exception becomes an
`{"error": ...}` payload. -/
def readFileTool (fs : Fs) (env : Env) (args : ReadFileArgsM) (root : String) : Payload :=
  if truthy args.head && truthy args.tail then
    .errorP "Cannot specify both head and tail parameters"
  else
    match validatePath fs env args.path root with
    | .error e => .errorP e
    | .ok vp =>
      if truthy args.tail then
        match tailFileFs fs vp (args.tail.getD 0) with
        | .ok c => .contentP c
        | .error e => .errorP e
      else if truthy args.head then
        match headFileFs fs vp (args.head.getD 0) with
        | .ok c => .contentP c
        | .error e => .errorP e
      else
        match readFileFs fs vp with
        | .ok c => .contentP c
        | .error e => .errorP (osErrStr e)

/-- Source tool `write_file` (lines 343-365): validation, the atomic write,
and on success the `{"message": ...}` payload of line 363. -/
def writeFileTool (fs : Fs) (env : Env) (path content token root : String) :
    Fs × Payload :=
  match validatePath fs env path root with
  | .error e => (fs, .errorP e)
  | .ok vp =>
    match writeFileFs fs vp token content with
    | (fs2, none) => (fs2, .messageP ("Successfully wrote to " ++ path))
    | (fs2, some e) => (fs2, .errorP (osErrStr e))

def isContentOrError : Payload → Bool
  | .contentP _ => true
  | .errorP _ => true
  | .messageP _ => false

def isMessageOrError : Payload → Bool
  | .messageP _ => true
  | .errorP _ => true
  | .contentP _ => false

/-- Claim C8 says every operation returns either a `content` or an `error`
payload; `write_file`'s success path returns a third shape, a `message`
payload, refuting the two-shape claim at a concrete successful write. -/
theorem write_returns_message_not_content :
    isContentOrError
      (writeFileTool [(["sandbox"], .dir)] env0 "/sandbox/a.txt" "hi" "0f" "/sandbox").2
      = false ∧
    (writeFileTool [(["sandbox"], .dir)] env0 "/sandbox/a.txt" "hi" "0f" "/sandbox").2
      = .messageP "Successfully wrote to /sandbox/a.txt" := by
  decide

/-- Amended C8: every outcome of `read_file` is a `content` or `error`
payload, and every outcome of `write_file` is a `message` or `error` payload;
in particular failures always surface as a structured `error` payload, never
as an unhandled fault. -/
theorem tool_payload_shapes (fs : Fs) (env : Env) (args : ReadFileArgsM)
    (p c tok root : String) :
    isContentOrError (readFileTool fs env args root) = true ∧
    isMessageOrError (writeFileTool fs env p c tok root).2 = true := by
  constructor
  · unfold readFileTool
    repeat' split
    all_goals rfl
  · unfold writeFileTool
    repeat' split
    all_goals rfl

/-! ## C9: `list_directory_with_sizes` (source lines 410-444) -/

/-- One stat-ed directory entry as the tool collects it (lines 415-432). -/
structure EntryInfo where
  name : String
  isDirectory : Bool
  size : Nat
  mtime : Nat
deriving DecidableEq

/-- Descending-size order: the relation under which
`entries.sort(key=size, reverse=True)` sorts. -/
def sizeDesc (a b : EntryInfo) : Prop := b.size ≤ a.size

/-- Ascending-name order: the relation under which
`entries.sort(key=name)` sorts (Python compares strings by code points, as
Lean's `String` order does). -/
def nameAsc (a b : EntryInfo) : Prop := a.name ≤ b.name

instance : DecidableRel sizeDesc :=
  fun a b => inferInstanceAs (Decidable (b.size ≤ a.size))

instance : DecidableRel nameAsc :=
  fun a b => inferInstanceAs (Decidable (a.name ≤ b.name))

instance : IsTotal EntryInfo sizeDesc := ⟨fun a b => le_total b.size a.size⟩

instance : IsTrans EntryInfo sizeDesc := ⟨fun _ _ _ hab hbc => le_trans hbc hab⟩

instance : IsTotal EntryInfo nameAsc := ⟨fun a b => le_total a.name b.name⟩

instance : IsTrans EntryInfo nameAsc := ⟨fun _ _ _ hab hbc => le_trans hab hbc⟩

/-- Source line 433-434: `entries.sort(key=..., reverse=(sortBy == "size"))`.
Python's sort is stable, and a stable sort by a total preorder has a unique
output, so insertion sort models it exactly. -/
def sortEntries (entries : List EntryInfo) (sortBy : String) : List EntryInfo :=
  if sortBy = "size" then List.insertionSort sizeDesc entries
  else List.insertionSort nameAsc entries

/-- The listing and the three summary numbers computed by
`list_directory_with_sizes` (lines 433-441); the totals are computed from the
sorted (in-place) entries list, exactly as the source does. -/
structure ListingResult where
  listing : List EntryInfo
  totalFiles : Nat
  totalDirs : Nat
  totalSize : Nat
deriving DecidableEq

def listDirectoryWithSizes (entries : List EntryInfo) (sortBy : String) : ListingResult :=
  { listing := sortEntries entries sortBy
    totalFiles := ((sortEntries entries sortBy).filter (fun e => !e.isDirectory)).length
    totalDirs := ((sortEntries entries sortBy).filter (fun e => e.isDirectory)).length
    totalSize := (((sortEntries entries sortBy).filter
      (fun e => !e.isDirectory)).map (fun e => e.size)).sum }

/-- Claim C9: sorting by size lists the entries in non-increasing size order
(directories carry their stat size, so the whole sequence — and a fortiori its
files-only subsequence — is non-increasing), sorting by name is ascending, and
the trailing summary's file count, directory count, and combined size equal
the counts over the listed entries and the byte sum of the listed files
only. -/
theorem list_with_sizes_sorted_and_totals (entries : List EntryInfo) :
    List.Sorted sizeDesc (listDirectoryWithSizes entries "size").listing ∧
    List.Sorted nameAsc (listDirectoryWithSizes entries "name").listing ∧
    ∀ sortBy,
      (listDirectoryWithSizes entries sortBy).totalFiles
          = (entries.filter (fun e => !e.isDirectory)).length ∧
      (listDirectoryWithSizes entries sortBy).totalDirs
          = (entries.filter (fun e => e.isDirectory)).length ∧
      (listDirectoryWithSizes entries sortBy).totalSize
          = ((entries.filter (fun e => !e.isDirectory)).map (fun e => e.size)).sum := by
  refine ⟨?_, ?_, ?_⟩
  · show List.Sorted sizeDesc (sortEntries entries "size")
    unfold sortEntries
    rw [if_pos rfl]
    exact List.sorted_insertionSort sizeDesc entries
  · show List.Sorted nameAsc (sortEntries entries "name")
    unfold sortEntries
    rw [if_neg (by decide)]
    exact List.sorted_insertionSort nameAsc entries
  · intro sortBy
    have hperm : List.Perm (sortEntries entries sortBy) entries := by
      unfold sortEntries
      split
      · exact List.perm_insertionSort sizeDesc entries
      · exact List.perm_insertionSort nameAsc entries
    refine ⟨?_, ?_, ?_⟩
    · exact (hperm.filter _).length_eq
    · exact (hperm.filter _).length_eq
    · exact List.Perm.sum_eq ((hperm.filter _).map _)
